import Mathlib

set_option maxHeartbeats 1000000

/-!
A shallow embedding of the hub-state WebSocket client of `basic_bot_react`
(`src/utils/hubState.ts` together with `sendHubStateUpdate` from
`src/utils/hubMessages.ts`).

Modelling conventions:

* A JavaScript object is an ordered association list `Obj` of
  string keys and `JVal` values; property write `o[k] = v` is `setKey`
  (replace in place, or append a fresh key) and property read is `getKey`
  (objects built from a duplicate-free list by `setKey` stay duplicate-free,
  so first match equals only match).
* The module-level mutable state of `hubState.ts`
  (`__hub_state`, `onUpdateCallbacks`, `hubStatePromises`, `lastHubUpdate`,
  `webSocket`, `hubMonitor`) is gathered into one `Client` record.
  Listener callbacks and request resolvers are identified by `Nat` handles
  (reference identity of the JS function objects).
* Side effects are made observable as trace fields of `Client`:
  `notes` records each listener invocation (handle, state object passed),
  `resolutions` each resolved full-state promise (handle, payload),
  `sends` each frame type written to the socket.  The counters
  `statusSets` (calls of `setHubConnStatus`), `merges` (calls of
  `updateStateFromCentralHub`) and `staleFlips` (times the monitor set the
  status to "offline") instrument the runs the theorems quantify over.
* The event loop is a step function over an `Event` alphabet: an incoming
  socket message (already split by `JSON.parse` outcome and `type` field),
  one tick of the `setInterval` monitor of `startHubMonitor`, a status
  assignment by the connect/open/error paths, listener add/remove, and a
  `getStateFromCentralHub` call.  Timestamps are milliseconds as `Nat`.
* `JSON.parse` failure is the `Frame.malformed` case; the `catch` around it
  makes the handler return normally, so `onMessage` is total.
-/

/-- A JSON value held in the hub state mirror.  The claims only inspect the
`hubConnStatus` string; other values (`hub_stats` objects, recognition
arrays, ...) are carried opaquely: `stats` mirrors the typed
`hub_stats: \x7bstate_updates_recv\x7d` field of `DEFAULT_HUB_STATE`, and
`blob` stands for any other JSON value, distinguished by a tag. -/
inductive JVal where
  | s : String → JVal
  | n : Int → JVal
  | stats : Int → JVal
  | blob : Nat → JVal
deriving DecidableEq, Repr

/-- A JavaScript object, as an ordered association list of own properties. -/
abbrev Obj := List (String × JVal)

/-- JS property write `o[k] = v`: overwrite the first (for objects: only)
binding of `k` in place, else append `k` as a new last property. -/
def setKey : Obj → String → JVal → Obj
  | [], k, v => [(k, v)]
  | kv :: rest, k, v =>
    if kv.1 = k then (k, v) :: rest else kv :: setKey rest k v

/-- JS property read `o[k]`. -/
def getKey : Obj → String → Option JVal
  | [], _ => none
  | kv :: rest, k => if kv.1 = k then some kv.2 else getKey rest k

/-- `WebSocket.readyState` values. -/
inductive ReadyState where
  | CONNECTING | OPEN | CLOSING | CLOSED
deriving DecidableEq, Repr

/-- `HUB_PING_INTERVAL` of hubState.ts: the `setInterval` period of the
monitor, in milliseconds. -/
def HUB_PING_INTERVAL : Nat := 1000

/-- `MIN_HUB_UPDATE_INTERVAL` of hubState.ts: the staleness threshold in
milliseconds. -/
def MIN_HUB_UPDATE_INTERVAL : Nat := 1500

/-- The 5000 ms delay of `delayedConnectToHub`. -/
def RECONNECT_DELAY_MS : Nat := 5000

/-- The 1000 ms retry delay of `sendHubStateUpdate` (hubMessages.ts). -/
def SEND_RETRY_DELAY_MS : Nat := 1000

/-- `DEFAULT_HUB_STATE` of hubState.ts. -/
def DEFAULT_HUB_STATE : Obj :=
  [("hubConnStatus", JVal.s "offline"), ("hub_stats", JVal.stats 0)]

/-- The module-level mutable state of hubState.ts, with observation traces.
`hubState` is `__hub_state`, `callbacks` is `onUpdateCallbacks`,
`pending` is `hubStatePromises`, `lastHubUpdate` and `socket`
(`webSocket`, `none` when the variable is `null`, else its ready state)
and `monitorRunning` (`hubMonitor !== null`) are as in the source.
`notes`, `resolutions`, `sends`, `statusSets`, `merges` and `staleFlips`
are pure instrumentation of the effects, appended to and never read by the
modelled operations. -/
structure Client where
  hubState : Obj
  callbacks : List Nat
  pending : List Nat
  lastHubUpdate : Nat
  socket : Option ReadyState
  monitorRunning : Bool
  notes : List (Nat × Obj)
  resolutions : List (Nat × Obj)
  sends : List String
  statusSets : Nat
  merges : Nat
  staleFlips : Nat
deriving DecidableEq, Repr

/-- The connection status the source reads as `__hub_state.hubConnStatus`. -/
def connStatus (c : Client) : Option JVal := getKey c.hubState "hubConnStatus"

/-- `emitUpdated` of hubState.ts: invoke every registered callback, in
registration order, with the (single, mutated) `__hub_state` object. -/
def emitUpdated (c : Client) : Client :=
  { c with notes := c.notes ++ c.callbacks.map (fun i => (i, c.hubState)) }

/-- `setHubConnStatus` of hubState.ts: assign `__hub_state.hubConnStatus`
and notify listeners. -/
def setHubConnStatus (s : String) (c : Client) : Client :=
  emitUpdated { c with
    hubState := setKey c.hubState "hubConnStatus" (JVal.s s)
    statusSets := c.statusSets + 1 }

/-- The `Object.entries` loop of `updateStateFromCentralHub`: assign each
entry of the frame's data object into the mirror, in entry order. -/
def applyData (o : Obj) (d : Obj) : Obj :=
  d.foldl (fun st kv => setKey st kv.1 kv.2) o

/-- `updateStateFromCentralHub` of hubState.ts: shallow key-by-key merge of
the payload into `__hub_state`, then `emitUpdated`. -/
def updateStateFromCentralHub (d : Obj) (c : Client) : Client :=
  emitUpdated { c with
    hubState := applyData c.hubState d
    merges := c.merges + 1 }

/-- An inbound socket frame, split by the outcome of `JSON.parse` and the
`type` field: `malformed` is a frame whose text fails to parse, `other`
any parsed message with a type different from pong/state/stateUpdate. -/
inductive Frame where
  | malformed
  | pong
  | state (d : Obj)
  | stateUpdate (d : Obj)
  | other
deriving DecidableEq, Repr

/-- The `message` listener installed by `connectToHub`: stamp
`lastHubUpdate = Date.now()` first, then parse; a parse error returns;
`pong` returns; a `state` frame with pending promises resolves them all
with the payload and clears the queue; otherwise `state` and `stateUpdate`
frames are merged by `updateStateFromCentralHub`. -/
def onMessage (now : Nat) (f : Frame) (c : Client) : Client :=
  let c1 := { c with lastHubUpdate := now }
  match f with
  | Frame.malformed => c1
  | Frame.pong => c1
  | Frame.state d =>
    if c1.pending = [] then
      updateStateFromCentralHub d c1
    else
      { c1 with
        resolutions := c1.resolutions ++ c1.pending.map (fun r => (r, d))
        pending := [] }
  | Frame.stateUpdate d => updateStateFromCentralHub d c1
  | Frame.other => c1

theorem onMessage_state_resolve (c : Client) (now : Nat) (d : Obj)
    (hp : c.pending ≠ []) :
    onMessage now (Frame.state d) c =
      { c with
        lastHubUpdate := now
        resolutions := c.resolutions ++ c.pending.map (fun r => (r, d))
        pending := [] } := by
  simp [onMessage, hp]

theorem onMessage_state_empty_queue (c : Client) (now : Nat) (d : Obj)
    (hp : c.pending = []) :
    onMessage now (Frame.state d) c =
      updateStateFromCentralHub d { c with lastHubUpdate := now } := by
  simp [onMessage, hp]

/-- One tick of the `setInterval` body of `startHubMonitor`: stop the
monitor when the socket is gone or not OPEN; otherwise send a ping and, if
the status is "online" and more than `MIN_HUB_UPDATE_INTERVAL` ms passed
since the last frame, set the status "offline" (counted in `staleFlips`).
The surrounding try/catch only logs, so a send failure changes nothing.
In the source the ping is written before the staleness check; the send
does not change any field the check reads, so the check is hoisted above
the send here, with the ping recorded on both branches as in the source. -/
def onMonitorTick (now : Nat) (c : Client) : Client :=
  if c.monitorRunning = false then c
  else
    match c.socket with
    | some ReadyState.OPEN =>
      if connStatus c = some (JVal.s "online") ∧
          MIN_HUB_UPDATE_INTERVAL < now - c.lastHubUpdate then
        let c1 := { c with sends := c.sends ++ ["ping"] }
        let c2 := setHubConnStatus "offline" c1
        { c2 with staleFlips := c2.staleFlips + 1 }
      else { c with sends := c.sends ++ ["ping"] }
    | _ => { c with monitorRunning := false }

/-- `addHubStateUpdatedListener` of hubState.ts: `push` onto
`onUpdateCallbacks`. -/
def addHubStateUpdatedListener (h : Nat) (c : Client) : Client :=
  { c with callbacks := c.callbacks ++ [h] }

/-- `indexOf` followed by `splice(index, 1)`: remove the first occurrence,
no change when absent. -/
def removeFirst (h : Nat) : List Nat → List Nat
  | [] => []
  | x :: xs => if x = h then xs else x :: removeFirst h xs

/-- `removeHubStateUpdatedListener` of hubState.ts. -/
def removeHubStateUpdatedListener (h : Nat) (c : Client) : Client :=
  { c with callbacks := removeFirst h c.callbacks }

/-- `getStateFromCentralHub` of hubState.ts: the `Promise` executor runs
synchronously, pushing the resolver `rid` onto `hubStatePromises`; then
`webSocket!.send(...)` dereferences the socket — the returned `Bool` is
`true` when that throws a `TypeError` because `webSocket` is `null`. -/
def getStateFromCentralHub (rid : Nat) (c : Client) : Bool × Client :=
  let c1 := { c with pending := c.pending ++ [rid] }
  match c1.socket with
  | none => (true, c1)
  | some _ => (false, { c1 with sends := c1.sends ++ ["getState"] })

/-- `updateSharedState` of hubState.ts: `webSocket!.send(...)`; the `Bool`
is `true` when the null dereference throws. -/
def updateSharedState (_d : Obj) (c : Client) : Bool × Client :=
  match c.socket with
  | none => (true, c)
  | some _ => (false, { c with sends := c.sends ++ ["updateState"] })

/-- One event-loop callback of the client.  `setStatus` stands for the
`setHubConnStatus` calls of the connect / open / connection-error paths
("connecting", "online", "offline"); the monitor's own "offline"
assignment happens inside `tick`. -/
inductive Event where
  | msg (now : Nat) (f : Frame)
  | tick (now : Nat)
  | setStatus (s : String)
  | addL (h : Nat)
  | removeL (h : Nat)
  | getState (rid : Nat)
deriving DecidableEq, Repr

/-- Dispatch one event to the modelled handler. -/
def step (c : Client) (e : Event) : Client :=
  match e with
  | Event.msg now f => onMessage now f c
  | Event.tick now => onMonitorTick now c
  | Event.setStatus s => setHubConnStatus s c
  | Event.addL h => addHubStateUpdatedListener h c
  | Event.removeL h => removeHubStateUpdatedListener h c
  | Event.getState rid => (getStateFromCentralHub rid c).2

/-- A run of the single-threaded event loop. -/
def run (c : Client) (es : List Event) : Client := es.foldl step c

/-- The client right after module load: `__hub_state` is the spread copy
`\x7b ...DEFAULT_HUB_STATE \x7d`, every registry empty, `webSocket = null`,
no monitor. -/
def initialClient : Client :=
  { hubState := DEFAULT_HUB_STATE
    callbacks := []
    pending := []
    lastHubUpdate := 0
    socket := none
    monitorRunning := false
    notes := []
    resolutions := []
    sends := []
    statusSets := 0
    merges := 0
    staleFlips := 0 }

/-- C7: a frame whose text is not valid JSON only stamps `lastHubUpdate`:
the handler returns without throwing (`onMessage` is total), the mirror,
the notification trace and the connection status are unchanged. -/
theorem malformed_frame_dropped (c : Client) (now : Nat) :
    onMessage now Frame.malformed c = { c with lastHubUpdate := now } ∧
    (onMessage now Frame.malformed c).hubState = c.hubState ∧
    (onMessage now Frame.malformed c).notes = c.notes ∧
    connStatus (onMessage now Frame.malformed c) = connStatus c := by
  refine ⟨rfl, rfl, rfl, rfl⟩

/-- Spec side, C1: the value a single frame's data object assigns to key
`k` — its last entry for `k`, if any. -/
def frameValue : Obj → String → Option JVal
  | [], _ => none
  | kv :: rest, k =>
    match frameValue rest k with
    | some v => some v
    | none => if kv.1 = k then some kv.2 else none

/-- Spec side, C1: across a sequence of frames, the value from the last
frame assigning `k` wins. -/
def lastWins : List Obj → String → Option JVal
  | [], _ => none
  | d :: rest, k =>
    match lastWins rest k with
    | some v => some v
    | none => frameValue d k

/-- Spec side, C1 (worded from the spec): the shallow key-by-key merge of
the initial state with each frame applied in arrival order — the last
frame assigning a key wins, keys absent from every frame keep their
initial value. -/
def shallowMergeSpec (init : Obj) (frames : List Obj) (k : String) :
    Option JVal :=
  match lastWins frames k with
  | some v => some v
  | none => getKey init k

theorem getKey_setKey (o : Obj) (k k1 : String) (v : JVal) :
    getKey (setKey o k1 v) k = if k1 = k then some v else getKey o k := by
  induction o with
  | nil => simp [setKey, getKey]
  | cons kv rest ih =>
    by_cases h1 : kv.1 = k1
    · by_cases h2 : k1 = k <;> simp [setKey, getKey, h1, h2]
    · by_cases h2 : kv.1 = k
      · have h3 : ¬ k = k1 := fun he => h1 (h2.trans he)
        have h4 : ¬ k1 = k := fun he => h3 he.symm
        simp [setKey, getKey, h1, h2, h3, h4]
      · simp [setKey, getKey, h1, h2, ih]

theorem getKey_applyData (d : Obj) (o : Obj) (k : String) :
    getKey (applyData o d) k =
      match frameValue d k with
      | some v => some v
      | none => getKey o k := by
  induction d generalizing o with
  | nil => simp [applyData, frameValue]
  | cons kv rest ih =>
    show getKey (applyData (setKey o kv.1 kv.2) rest) k = _
    rw [ih]
    cases hf : frameValue rest k with
    | some v => simp [frameValue, hf]
    | none =>
      rw [getKey_setKey]
      by_cases h : kv.1 = k <;> simp [frameValue, hf, h]

/-- A `stateUpdate` frame delivered by the message listener (the arrival
time does not affect the mirror). -/
def mkUpdateEvent (d : Obj) : Event := Event.msg 0 (Frame.stateUpdate d)

theorem run_stateUpdates_hubState (frames : List Obj) (c : Client) :
    (run c (frames.map mkUpdateEvent)).hubState =
      frames.foldl applyData c.hubState := by
  induction frames generalizing c with
  | nil => rfl
  | cons d rest ih =>
    show (run (step c (mkUpdateEvent d)) (rest.map mkUpdateEvent)).hubState = _
    rw [ih]
    rfl

/-- C1: after any sequence of incremental-update (`stateUpdate`) frames,
the local mirror equals — key by key — the shallow merge of the initial
state with the frames applied in arrival order: for every key the value of
the last frame assigning it wins, and keys no frame assigns keep their
initial value. -/
theorem mirror_eq_shallow_merge (c : Client) (frames : List Obj) (k : String) :
    getKey ((run c (frames.map mkUpdateEvent)).hubState) k =
      shallowMergeSpec c.hubState frames k := by
  rw [run_stateUpdates_hubState]
  induction frames generalizing c with
  | nil => simp [shallowMergeSpec, lastWins]
  | cons d rest ih =>
    show getKey (rest.foldl applyData (applyData c.hubState d)) k = _
    have := ih { c with hubState := applyData c.hubState d }
    simp only at this
    rw [this]
    simp only [shallowMergeSpec, lastWins]
    cases hl : lastWins rest k with
    | some v => simp
    | none =>
      simp only
      rw [getKey_applyData]

/-- C2: a `state` frame arriving while the pending-request queue is
non-empty resolves every queued resolver with the frame's payload (in
queue order) and empties the queue, and in that branch neither merges the
payload into the mirror nor notifies listeners; a `state` frame arriving
with an empty queue is handled exactly like a `stateUpdate` frame. -/
theorem state_frame_dispatch (c : Client) (now : Nat) (d : Obj) :
    (c.pending ≠ [] →
      (onMessage now (Frame.state d) c).resolutions =
        c.resolutions ++ c.pending.map (fun r => (r, d)) ∧
      (onMessage now (Frame.state d) c).pending = [] ∧
      (onMessage now (Frame.state d) c).hubState = c.hubState ∧
      (onMessage now (Frame.state d) c).notes = c.notes ∧
      (onMessage now (Frame.state d) c).merges = c.merges) ∧
    (c.pending = [] →
      onMessage now (Frame.state d) c = onMessage now (Frame.stateUpdate d) c) := by
  constructor
  · intro hp
    simp [onMessage, hp]
  · intro hp
    simp [onMessage, hp]

/-- Witness for `state_frame_dispatch` at a concrete client with one
pending resolver, and at one with none. -/
theorem state_frame_dispatch_witness :
    (onMessage 9 (Frame.state [("foo", JVal.n 1)])
        { initialClient with pending := [4] }).resolutions =
      [(4, [("foo", JVal.n 1)])] ∧
    (onMessage 9 (Frame.state [("foo", JVal.n 1)])
        { initialClient with pending := [4] }).pending = [] ∧
    onMessage 9 (Frame.state [("foo", JVal.n 1)]) initialClient =
      onMessage 9 (Frame.stateUpdate [("foo", JVal.n 1)]) initialClient := by
  have h1 := (state_frame_dispatch { initialClient with pending := [4] } 9
    [("foo", JVal.n 1)]).1 (by decide)
  have h2 := (state_frame_dispatch initialClient 9 [("foo", JVal.n 1)]).2 rfl
  exact ⟨h1.1, h1.2.1, h2⟩

/-- The resolver queue after `k` consecutive `getStateFromCentralHub`
calls is the old queue with the `k` resolvers appended in call order. -/
theorem pending_after_gets (rids : List Nat) (c : Client) :
    (rids.foldl (fun acc r => (getStateFromCentralHub r acc).2) c).pending =
      c.pending ++ rids ∧
    (rids.foldl (fun acc r => (getStateFromCentralHub r acc).2) c).resolutions =
      c.resolutions ∧
    (rids.foldl (fun acc r => (getStateFromCentralHub r acc).2) c).notes =
      c.notes := by
  induction rids generalizing c with
  | nil => simp
  | cons r rest ih =>
    have := ih ((getStateFromCentralHub r c).2)
    simp only [List.foldl_cons] at *
    refine ⟨?_, ?_, ?_⟩
    · rw [this.1]
      cases hs : c.socket <;> simp [getStateFromCentralHub, hs]
    · rw [this.2.1]
      cases hs : c.socket <;> simp [getStateFromCentralHub, hs]
    · rw [this.2.2]
      cases hs : c.socket <;> simp [getStateFromCentralHub, hs]

/-- Number of occurrences of handle `h` in a list (by `filter`, to match
the notification trace). -/
def countH (h : Nat) (l : List Nat) : Nat :=
  (l.filter (fun x => x = h)).length

theorem countH_nil (h : Nat) : countH h [] = 0 := rfl

theorem countH_eq_zero_of_not_mem {h : Nat} {l : List Nat} (hm : h ∉ l) :
    countH h l = 0 := by
  induction l with
  | nil => rfl
  | cons x xs ih =>
    have hx : ¬ x = h := fun he => hm (by simp [he])
    have hxs : h ∉ xs := fun he => hm (by simp [he])
    simp [countH, List.filter, hx] at *
    exact ih hxs

theorem countH_eq_one_of_nodup {h : Nat} {l : List Nat}
    (hd : l.Nodup) (hm : h ∈ l) : countH h l = 1 := by
  induction l with
  | nil => cases hm
  | cons x xs ih =>
    rcases List.mem_cons.mp hm with he | hxs
    · have hnx : h ∉ xs := by
        rw [he]; exact (List.nodup_cons.mp hd).1
      have h0 : countH h xs = 0 := countH_eq_zero_of_not_mem hnx
      simp [countH, List.filter, he.symm] at *
      exact h0
    · have hx : ¬ x = h := fun he2 => (List.nodup_cons.mp hd).1 (he2 ▸ hxs)
      have := ih (List.nodup_cons.mp hd).2 hxs
      simp [countH, List.filter, hx] at *
      exact this

theorem filter_fst_map_pair (d : Obj) (r : Nat) (l : List Nat) :
    (l.map (fun r2 => (r2, d))).filter (fun p => p.1 = r) =
      (l.filter (fun x => x = r)).map (fun r2 => (r2, d)) := by
  induction l with
  | nil => rfl
  | cons x xs ih =>
    by_cases hx : x = r <;> simp [List.filter, hx, ih]

/-- C6: `k ≥ 1` concurrent `getStateFromCentralHub` calls followed by one
`state` frame: the queue is empty afterwards, exactly `k` resolutions are
recorded, every resolution carries the frame's payload, and each of the
`k` resolvers is resolved exactly once. -/
theorem concurrent_getState_resolved (c : Client) (rids : List Nat) (d : Obj)
    (now : Nat) (hp : c.pending = []) (hr : c.resolutions = [])
    (hnd : rids.Nodup) (hk : rids ≠ []) (_hs : c.socket = some ReadyState.OPEN) :
    (onMessage now (Frame.state d)
        (rids.foldl (fun acc r => (getStateFromCentralHub r acc).2) c)).pending = [] ∧
    (onMessage now (Frame.state d)
        (rids.foldl (fun acc r => (getStateFromCentralHub r acc).2) c)).resolutions.length =
      rids.length ∧
    (∀ p ∈ (onMessage now (Frame.state d)
        (rids.foldl (fun acc r => (getStateFromCentralHub r acc).2) c)).resolutions,
      p.2 = d) ∧
    (∀ r ∈ rids,
      ((onMessage now (Frame.state d)
          (rids.foldl (fun acc r2 => (getStateFromCentralHub r2 acc).2) c)).resolutions.filter
        (fun p => p.1 = r)).length = 1) := by
  have hq := pending_after_gets rids c
  set c1 := rids.foldl (fun acc r => (getStateFromCentralHub r acc).2) c with hc1
  have hqp : c1.pending = rids := by rw [hq.1, hp]; simp
  have hqr : c1.resolutions = [] := by rw [hq.2.1, hr]
  have hne : c1.pending ≠ [] := by rw [hqp]; exact hk
  rw [onMessage_state_resolve c1 now d hne]
  refine ⟨rfl, ?_, ?_, ?_⟩
  · simp [hqr, hqp]
  · intro p hpmem
    simp [hqr, hqp] at hpmem
    obtain ⟨r, _, hpr⟩ := hpmem
    rw [← hpr]
  · intro r hrmem
    simp only [hqr, hqp, List.nil_append]
    rw [filter_fst_map_pair, List.length_map]
    exact countH_eq_one_of_nodup hnd hrmem

/-- Witness for `concurrent_getState_resolved`: two concurrent calls, one
reply. -/
theorem concurrent_getState_resolved_witness :
    (onMessage 3 (Frame.state [("x", JVal.n 5)])
        ([1, 2].foldl (fun acc r => (getStateFromCentralHub r acc).2)
          { initialClient with socket := some ReadyState.OPEN })).pending = [] ∧
    (onMessage 3 (Frame.state [("x", JVal.n 5)])
        ([1, 2].foldl (fun acc r => (getStateFromCentralHub r acc).2)
          { initialClient with socket := some ReadyState.OPEN })).resolutions.length = 2 := by
  have h := concurrent_getState_resolved
    { initialClient with socket := some ReadyState.OPEN } [1, 2]
    [("x", JVal.n 5)] 3 rfl rfl (by decide) (by decide) rfl
  exact ⟨h.1, h.2.1⟩

/-- C8: calling `getStateFromCentralHub` or `updateSharedState` while
`webSocket` is `null` throws (the `webSocket!.send` dereference), and no
frame is queued for the socket; a live socket is a precondition of both.
For `getStateFromCentralHub` the resolver has already been pushed when the
throw happens, since the `Promise` executor runs synchronously first. -/
theorem null_socket_send_throws (c : Client) (rid : Nat) (d : Obj)
    (h : c.socket = none) :
    (getStateFromCentralHub rid c).1 = true ∧
    (getStateFromCentralHub rid c).2.sends = c.sends ∧
    (getStateFromCentralHub rid c).2.pending = c.pending ++ [rid] ∧
    (updateSharedState d c).1 = true ∧
    (updateSharedState d c).2 = c := by
  refine ⟨?_, ?_, ?_, ?_, ?_⟩ <;> simp [getStateFromCentralHub, updateSharedState, h]

/-- Witness for `null_socket_send_throws` at the freshly loaded module
state, where `webSocket` is still `null`. -/
theorem null_socket_send_throws_witness :
    (getStateFromCentralHub 0 initialClient).1 = true ∧
    (updateSharedState [("a", JVal.n 1)] initialClient).1 = true := by
  have h := null_socket_send_throws initialClient 0 [("a", JVal.n 1)] rfl
  exact ⟨h.1, h.2.2.2.1⟩

theorem onMonitorTick_stale (c : Client) (now : Nat)
    (hm : c.monitorRunning = true) (hs : c.socket = some ReadyState.OPEN)
    (ho : connStatus c = some (JVal.s "online"))
    (hstale : MIN_HUB_UPDATE_INTERVAL < now - c.lastHubUpdate) :
    onMonitorTick now c =
      { c with
        hubState := setKey c.hubState "hubConnStatus" (JVal.s "offline")
        sends := c.sends ++ ["ping"]
        statusSets := c.statusSets + 1
        notes := c.notes ++ c.callbacks.map
          (fun i => (i, setKey c.hubState "hubConnStatus" (JVal.s "offline")))
        staleFlips := c.staleFlips + 1 } := by
  rw [onMonitorTick, hm, hs]
  rw [if_neg (by simp), if_pos ⟨ho, hstale⟩]
  simp [setHubConnStatus, emitUpdated]

theorem onMonitorTick_not_online (c : Client) (now : Nat)
    (hm : c.monitorRunning = true) (hs : c.socket = some ReadyState.OPEN)
    (hno : ¬ connStatus c = some (JVal.s "online")) :
    onMonitorTick now c = { c with sends := c.sends ++ ["ping"] } := by
  rw [onMonitorTick, hm, hs]
  rw [if_neg (by simp), if_neg (fun hand => hno hand.1)]

/-- C4: while the monitor runs on an OPEN socket with status "online", a
tick more than `MIN_HUB_UPDATE_INTERVAL` (1500 ms) after the last received
frame flips the status to "offline" and fires exactly one notification
round for the transition (each registered listener once, in order, with
the mutated state); any later tick while still stale fires no further
offline notification and leaves the status and mirror unchanged. -/
theorem stale_flips_offline_once (c : Client) (now : Nat)
    (hm : c.monitorRunning = true) (hs : c.socket = some ReadyState.OPEN)
    (ho : connStatus c = some (JVal.s "online"))
    (hstale : MIN_HUB_UPDATE_INTERVAL < now - c.lastHubUpdate) :
    connStatus (onMonitorTick now c) = some (JVal.s "offline") ∧
    (onMonitorTick now c).notes =
      c.notes ++ c.callbacks.map (fun i => (i, (onMonitorTick now c).hubState)) ∧
    (onMonitorTick now c).staleFlips = c.staleFlips + 1 ∧
    (∀ now2 : Nat,
      (onMonitorTick now2 (onMonitorTick now c)).notes = (onMonitorTick now c).notes ∧
      connStatus (onMonitorTick now2 (onMonitorTick now c)) =
        connStatus (onMonitorTick now c) ∧
      (onMonitorTick now2 (onMonitorTick now c)).staleFlips =
        (onMonitorTick now c).staleFlips ∧
      (onMonitorTick now2 (onMonitorTick now c)).hubState =
        (onMonitorTick now c).hubState) := by
  have hrun := onMonitorTick_stale c now hm hs ho hstale
  have hoff : connStatus (onMonitorTick now c) = some (JVal.s "offline") := by
    rw [hrun]
    show getKey (setKey c.hubState "hubConnStatus" (JVal.s "offline"))
      "hubConnStatus" = some (JVal.s "offline")
    rw [getKey_setKey]
    simp
  refine ⟨hoff, by rw [hrun], by rw [hrun], ?_⟩
  intro now2
  have hno2 : ¬ connStatus (onMonitorTick now c) = some (JVal.s "online") := by
    rw [hoff]
    intro he
    exact absurd (JVal.s.inj (Option.some.inj he)) (by decide)
  have hm2 : (onMonitorTick now c).monitorRunning = true := by
    rw [hrun]; exact hm
  have hs2 : (onMonitorTick now c).socket = some ReadyState.OPEN := by
    rw [hrun]; exact hs
  rw [onMonitorTick_not_online (onMonitorTick now c) now2 hm2 hs2 hno2]
  exact ⟨rfl, rfl, rfl, rfl⟩

/-- Witness for `stale_flips_offline_once`: an online client with one
listener, last frame at t = 0, tick at t = 2000. -/
theorem stale_flips_offline_once_witness :
    connStatus (onMonitorTick 2000
      { initialClient with
        hubState := [("hubConnStatus", JVal.s "online")]
        callbacks := [3]
        socket := some ReadyState.OPEN
        monitorRunning := true }) = some (JVal.s "offline") ∧
    (onMonitorTick 2000
      { initialClient with
        hubState := [("hubConnStatus", JVal.s "online")]
        callbacks := [3]
        socket := some ReadyState.OPEN
        monitorRunning := true }).staleFlips = 1 := by
  have h := stale_flips_offline_once
    { initialClient with
      hubState := [("hubConnStatus", JVal.s "online")]
      callbacks := [3]
      socket := some ReadyState.OPEN
      monitorRunning := true }
    2000 rfl rfl (by decide) (by decide)
  exact ⟨h.1, h.2.2.1⟩

/-- A run condition for C10: every monitor tick happens at most
`MIN_HUB_UPDATE_INTERVAL` ms after the `lastHubUpdate` stamp current at
that tick — that is, frames keep arriving more often than the staleness
threshold. -/
def eventFreshAt (c : Client) : Event → Bool
  | Event.tick now => decide (now - c.lastHubUpdate ≤ MIN_HUB_UPDATE_INTERVAL)
  | _ => true

def ticksFresh : Client → List Event → Bool
  | _, [] => true
  | c, e :: es => eventFreshAt c e && ticksFresh (step c e) es

theorem staleFlips_step_of_fresh (c : Client) (e : Event)
    (hf : ∀ now, e = Event.tick now →
      now - c.lastHubUpdate ≤ MIN_HUB_UPDATE_INTERVAL) :
    (step c e).staleFlips = c.staleFlips := by
  cases e with
  | msg now f =>
    cases f with
    | malformed => rfl
    | pong => rfl
    | state d =>
      by_cases hp : c.pending = []
      · rw [show step c (Event.msg now (Frame.state d)) =
          onMessage now (Frame.state d) c from rfl]
        rw [onMessage_state_empty_queue c now d hp]
        rfl
      · rw [show step c (Event.msg now (Frame.state d)) =
          onMessage now (Frame.state d) c from rfl]
        rw [onMessage_state_resolve c now d hp]
    | stateUpdate d => rfl
    | other => rfl
  | tick now =>
    have hle := hf now rfl
    show (onMonitorTick now c).staleFlips = c.staleFlips
    rw [onMonitorTick]
    by_cases hm : c.monitorRunning = false
    · rw [if_pos hm]
    · rw [if_neg hm]
      cases hs : c.socket with
      | none => rfl
      | some rs =>
        cases rs with
        | OPEN =>
          have hcond : ¬ (connStatus c = some (JVal.s "online") ∧
              MIN_HUB_UPDATE_INTERVAL < now - c.lastHubUpdate) := by
            intro hand
            exact absurd hand.2 (Nat.not_lt.mpr hle)
          simp only [if_neg hcond]
        | CONNECTING => rfl
        | CLOSING => rfl
        | CLOSED => rfl
  | setStatus s => rfl
  | addL h => rfl
  | removeL h => rfl
  | getState rid =>
    show ((getStateFromCentralHub rid c).2).staleFlips = c.staleFlips
    cases hs : c.socket <;> simp [getStateFromCentralHub, hs]

/-- C10: every incoming frame — malformed and `pong` frames included —
stamps `lastHubUpdate` with its arrival time before parsing is attempted;
consequently, in any run whose monitor ticks all happen within the 1500 ms
staleness threshold of the then-current last frame (`ticksFresh`), the
monitor never flips the status from "online" to "offline". -/
theorem frames_keep_online :
    (∀ (c : Client) (now : Nat) (f : Frame),
      (onMessage now f c).lastHubUpdate = now) ∧
    (∀ (c : Client) (es : List Event), ticksFresh c es = true →
      (run c es).staleFlips = c.staleFlips) := by
  constructor
  · intro c now f
    cases f with
    | malformed => rfl
    | pong => rfl
    | state d =>
      by_cases hp : c.pending = []
      · rw [onMessage_state_empty_queue c now d hp]
        rfl
      · rw [onMessage_state_resolve c now d hp]
    | stateUpdate d => rfl
    | other => rfl
  · intro c es
    induction es generalizing c with
    | nil => intro _; rfl
    | cons e rest ih =>
      intro hfresh
      have hfresh2 : (eventFreshAt c e && ticksFresh (step c e) rest) = true :=
        hfresh
      have hsplit := Bool.and_eq_true_iff.mp hfresh2
      have hstep : (step c e).staleFlips = c.staleFlips := by
        apply staleFlips_step_of_fresh
        intro now he
        subst he
        exact of_decide_eq_true hsplit.1
      show (run (step c e) rest).staleFlips = c.staleFlips
      rw [ih (step c e) hsplit.2, hstep]

/-- Witness for `frames_keep_online`: a malformed frame stamps the clock,
and a run of malformed frames plus in-threshold ticks never flips. -/
theorem frames_keep_online_witness :
    (onMessage 7 Frame.malformed initialClient).lastHubUpdate = 7 ∧
    (run { initialClient with
        hubState := [("hubConnStatus", JVal.s "online")]
        socket := some ReadyState.OPEN
        monitorRunning := true }
      [Event.msg 100 Frame.malformed, Event.tick 1000,
       Event.msg 1600 Frame.malformed, Event.tick 2500]).staleFlips =
      ({ initialClient with
        hubState := [("hubConnStatus", JVal.s "online")]
        socket := some ReadyState.OPEN
        monitorRunning := true } : Client).staleFlips := by
  exact ⟨frames_keep_online.1 initialClient 7 Frame.malformed,
    frames_keep_online.2 _ _ (by decide)⟩

/-- Number of times handler `h` has been invoked, as recorded in the
notification trace. -/
def invocations (h : Nat) (c : Client) : Nat :=
  (c.notes.filter (fun p => p.1 = h)).length

/-- Whether an event registers or unregisters handler `h`. -/
def eventTouches (h : Nat) : Event → Bool
  | Event.addL h2 => decide (h2 = h)
  | Event.removeL h2 => decide (h2 = h)
  | _ => false

theorem countH_append (h : Nat) (l1 l2 : List Nat) :
    countH h (l1 ++ l2) = countH h l1 + countH h l2 := by
  simp [countH, List.filter_append]

theorem countH_removeFirst_self (h : Nat) (l : List Nat) :
    countH h (removeFirst h l) = countH h l - 1 := by
  induction l with
  | nil => rfl
  | cons x xs ih =>
    by_cases hx : x = h
    · simp [removeFirst, countH, List.filter, hx]
    · simp only [removeFirst, if_neg hx]
      simp [countH, List.filter, hx] at *
      omega

theorem countH_removeFirst_ne {h h2 : Nat} (hne : ¬ h2 = h) (l : List Nat) :
    countH h (removeFirst h2 l) = countH h l := by
  induction l with
  | nil => rfl
  | cons x xs ih =>
    show countH h (if x = h2 then xs else x :: removeFirst h2 xs) = _
    by_cases hx : x = h2
    · have hxh : ¬ x = h := fun he => hne (hx.symm.trans he)
      rw [if_pos hx]
      simp [countH, List.filter, hxh]
    · rw [if_neg hx]
      have ihl : (List.filter (fun y => decide (y = h)) (removeFirst h2 xs)).length =
          (List.filter (fun y => decide (y = h)) xs).length := ih
      by_cases hxh : x = h <;> simp [countH, List.filter, hxh, ihl]

theorem invocations_emit (h : Nat) (c : Client) :
    invocations h (emitUpdated c) = invocations h c + countH h c.callbacks := by
  show ((c.notes ++ c.callbacks.map (fun i => (i, c.hubState))).filter
      (fun p => p.1 = h)).length = _
  rw [List.filter_append, List.length_append, filter_fst_map_pair,
    List.length_map]
  rfl

theorem invocations_append_map (h : Nat) (c2 c : Client) (st : Obj)
    (hn : c2.notes = c.notes ++ c.callbacks.map (fun i => (i, st))) :
    invocations h c2 = invocations h c + countH h c.callbacks := by
  show (c2.notes.filter (fun p => p.1 = h)).length = _
  rw [hn, List.filter_append, List.length_append, filter_fst_map_pair,
    List.length_map]
  rfl

theorem onMonitorTick_stopped (c : Client) (now : Nat)
    (hm : c.monitorRunning = false) : onMonitorTick now c = c := by
  rw [onMonitorTick, if_pos hm]

theorem onMonitorTick_sock_not_open (c : Client) (now : Nat)
    (hm : ¬ c.monitorRunning = false) (hs : c.socket ≠ some ReadyState.OPEN) :
    onMonitorTick now c = { c with monitorRunning := false } := by
  rw [onMonitorTick, if_neg hm]
  cases hsock : c.socket with
  | none => rfl
  | some rs =>
    cases rs with
    | OPEN => exact absurd hsock hs
    | CONNECTING => rfl
    | CLOSING => rfl
    | CLOSED => rfl

theorem onMonitorTick_quiet (c : Client) (now : Nat)
    (hm : ¬ c.monitorRunning = false) (hs : c.socket = some ReadyState.OPEN)
    (hq : ¬ (connStatus c = some (JVal.s "online") ∧
      MIN_HUB_UPDATE_INTERVAL < now - c.lastHubUpdate)) :
    onMonitorTick now c = { c with sends := c.sends ++ ["ping"] } := by
  rw [onMonitorTick, if_neg hm, hs]
  rw [if_neg hq]

theorem onMessage_stateUpdate_eq (c : Client) (now : Nat) (d : Obj) :
    onMessage now (Frame.stateUpdate d) c =
      emitUpdated { c with
        lastHubUpdate := now
        hubState := applyData c.hubState d
        merges := c.merges + 1 } := rfl

theorem onMessage_state_empty_eq (c : Client) (now : Nat) (d : Obj)
    (hp : c.pending = []) :
    onMessage now (Frame.state d) c =
      emitUpdated { c with
        lastHubUpdate := now
        hubState := applyData c.hubState d
        merges := c.merges + 1 } := by
  rw [onMessage_state_empty_queue c now d hp]
  rfl

theorem step_count_inv (c : Client) (e : Event) (h : Nat)
    (hc : countH h c.callbacks = 1) (he : eventTouches h e = false) :
    invocations h (step c e) + c.statusSets + c.merges =
      invocations h c + (step c e).statusSets + (step c e).merges ∧
    countH h (step c e).callbacks = 1 := by
  cases e with
  | msg now f =>
    simp only [step]
    cases f with
    | malformed => exact ⟨rfl, hc⟩
    | pong => exact ⟨rfl, hc⟩
    | state d =>
      by_cases hp : c.pending = []
      · rw [onMessage_state_empty_eq c now d hp, invocations_emit]
        refine ⟨?_, hc⟩
        show invocations h c + countH h c.callbacks + c.statusSets + c.merges =
          invocations h c + c.statusSets + (c.merges + 1)
        rw [hc]
        omega
      · rw [onMessage_state_resolve c now d hp]
        exact ⟨rfl, hc⟩
    | stateUpdate d =>
      rw [onMessage_stateUpdate_eq c now d, invocations_emit]
      refine ⟨?_, hc⟩
      show invocations h c + countH h c.callbacks + c.statusSets + c.merges =
        invocations h c + c.statusSets + (c.merges + 1)
      rw [hc]
      omega
    | other => exact ⟨rfl, hc⟩
  | tick now =>
    simp only [step]
    by_cases hm : c.monitorRunning = false
    · rw [onMonitorTick_stopped c now hm]
      exact ⟨rfl, hc⟩
    · cases hsock : c.socket with
      | none =>
        rw [onMonitorTick_sock_not_open c now hm (by simp [hsock])]
        exact ⟨rfl, hc⟩
      | some rs =>
        cases rs with
        | OPEN =>
          have hm2 : c.monitorRunning = true := by
            cases hb : c.monitorRunning with
            | false => exact absurd hb hm
            | true => rfl
          by_cases hcond : connStatus c = some (JVal.s "online") ∧
              MIN_HUB_UPDATE_INTERVAL < now - c.lastHubUpdate
          · rw [onMonitorTick_stale c now hm2 hsock hcond.1 hcond.2]
            rw [invocations_append_map h _ c
              (setKey c.hubState "hubConnStatus" (JVal.s "offline")) rfl]
            refine ⟨?_, hc⟩
            show invocations h c + countH h c.callbacks + c.statusSets +
                c.merges =
              invocations h c + (c.statusSets + 1) + c.merges
            rw [hc]
            omega
          · rw [onMonitorTick_quiet c now hm hsock hcond]
            exact ⟨rfl, hc⟩
        | CONNECTING =>
          rw [onMonitorTick_sock_not_open c now hm (by simp [hsock])]
          exact ⟨rfl, hc⟩
        | CLOSING =>
          rw [onMonitorTick_sock_not_open c now hm (by simp [hsock])]
          exact ⟨rfl, hc⟩
        | CLOSED =>
          rw [onMonitorTick_sock_not_open c now hm (by simp [hsock])]
          exact ⟨rfl, hc⟩
  | setStatus s =>
    simp only [step]
    rw [show setHubConnStatus s c = emitUpdated { c with
      hubState := setKey c.hubState "hubConnStatus" (JVal.s s)
      statusSets := c.statusSets + 1 } from rfl]
    rw [invocations_emit]
    refine ⟨?_, hc⟩
    show invocations h c + countH h c.callbacks + c.statusSets + c.merges =
      invocations h c + (c.statusSets + 1) + c.merges
    rw [hc]
    omega
  | addL h2 =>
    have hne : ¬ h2 = h := by simpa [eventTouches] using he
    simp only [step]
    refine ⟨rfl, ?_⟩
    show countH h (c.callbacks ++ [h2]) = 1
    rw [countH_append, hc]
    simp [countH, List.filter, hne]
  | removeL h2 =>
    have hne : ¬ h2 = h := by simpa [eventTouches] using he
    simp only [step]
    refine ⟨rfl, ?_⟩
    show countH h (removeFirst h2 c.callbacks) = 1
    rw [countH_removeFirst_ne hne, hc]
  | getState rid =>
    simp only [step]
    cases hsock : c.socket with
    | none =>
      rw [show (getStateFromCentralHub rid c).2 = { c with
        pending := c.pending ++ [rid] } from by
          simp [getStateFromCentralHub, hsock]]
      exact ⟨rfl, hc⟩
    | some rs =>
      rw [show (getStateFromCentralHub rid c).2 = { c with
        pending := c.pending ++ [rid]
        sends := c.sends ++ ["getState"] } from by
          simp [getStateFromCentralHub, hsock]]
      exact ⟨rfl, hc⟩

theorem run_count_inv (es : List Event) (c : Client) (h : Nat)
    (hc : countH h c.callbacks = 1)
    (he : ∀ e ∈ es, eventTouches h e = false) :
    invocations h (run c es) + c.statusSets + c.merges =
      invocations h c + (run c es).statusSets + (run c es).merges ∧
    countH h (run c es).callbacks = 1 := by
  induction es generalizing c with
  | nil => exact ⟨rfl, hc⟩
  | cons e rest ih =>
    have hstep := step_count_inv c e h hc (he e (by simp))
    have hrest := ih (step c e) hstep.2 (fun e2 hm => he e2 (by simp [hm]))
    refine ⟨?_, hrest.2⟩
    show invocations h (run (step c e) rest) + c.statusSets + c.merges =
      invocations h c + (run (step c e) rest).statusSets +
        (run (step c e) rest).merges
    have h1 := hrest.1
    have h2 := hstep.1
    omega

theorem step_count_zero (c : Client) (e : Event) (h : Nat)
    (hc : countH h c.callbacks = 0) (he : e ≠ Event.addL h) :
    invocations h (step c e) = invocations h c ∧
    countH h (step c e).callbacks = 0 := by
  cases e with
  | msg now f =>
    simp only [step]
    cases f with
    | malformed => exact ⟨rfl, hc⟩
    | pong => exact ⟨rfl, hc⟩
    | state d =>
      by_cases hp : c.pending = []
      · rw [onMessage_state_empty_eq c now d hp, invocations_emit, hc]
        exact ⟨rfl, hc⟩
      · rw [onMessage_state_resolve c now d hp]
        exact ⟨rfl, hc⟩
    | stateUpdate d =>
      rw [onMessage_stateUpdate_eq c now d, invocations_emit, hc]
      exact ⟨rfl, hc⟩
    | other => exact ⟨rfl, hc⟩
  | tick now =>
    simp only [step]
    by_cases hm : c.monitorRunning = false
    · rw [onMonitorTick_stopped c now hm]
      exact ⟨rfl, hc⟩
    · cases hsock : c.socket with
      | none =>
        rw [onMonitorTick_sock_not_open c now hm (by simp [hsock])]
        exact ⟨rfl, hc⟩
      | some rs =>
        cases rs with
        | OPEN =>
          have hm2 : c.monitorRunning = true := by
            cases hb : c.monitorRunning with
            | false => exact absurd hb hm
            | true => rfl
          by_cases hcond : connStatus c = some (JVal.s "online") ∧
              MIN_HUB_UPDATE_INTERVAL < now - c.lastHubUpdate
          · rw [onMonitorTick_stale c now hm2 hsock hcond.1 hcond.2]
            rw [invocations_append_map h _ c
              (setKey c.hubState "hubConnStatus" (JVal.s "offline")) rfl, hc]
            exact ⟨rfl, rfl⟩
          · rw [onMonitorTick_quiet c now hm hsock hcond]
            exact ⟨rfl, hc⟩
        | CONNECTING =>
          rw [onMonitorTick_sock_not_open c now hm (by simp [hsock])]
          exact ⟨rfl, hc⟩
        | CLOSING =>
          rw [onMonitorTick_sock_not_open c now hm (by simp [hsock])]
          exact ⟨rfl, hc⟩
        | CLOSED =>
          rw [onMonitorTick_sock_not_open c now hm (by simp [hsock])]
          exact ⟨rfl, hc⟩
  | setStatus s =>
    simp only [step]
    rw [show setHubConnStatus s c = emitUpdated { c with
      hubState := setKey c.hubState "hubConnStatus" (JVal.s s)
      statusSets := c.statusSets + 1 } from rfl]
    rw [invocations_emit, hc]
    exact ⟨rfl, hc⟩
  | addL h2 =>
    have hne : ¬ h2 = h := fun heq => he (by rw [heq])
    simp only [step]
    refine ⟨rfl, ?_⟩
    show countH h (c.callbacks ++ [h2]) = 0
    rw [countH_append, hc]
    simp [countH, List.filter, hne]
  | removeL h2 =>
    simp only [step]
    refine ⟨rfl, ?_⟩
    show countH h (removeFirst h2 c.callbacks) = 0
    by_cases hne : h2 = h
    · rw [hne, countH_removeFirst_self, hc]
    · rw [countH_removeFirst_ne hne, hc]
  | getState rid =>
    simp only [step]
    cases hsock : c.socket with
    | none =>
      rw [show (getStateFromCentralHub rid c).2 = { c with
        pending := c.pending ++ [rid] } from by
          simp [getStateFromCentralHub, hsock]]
      exact ⟨rfl, hc⟩
    | some rs =>
      rw [show (getStateFromCentralHub rid c).2 = { c with
        pending := c.pending ++ [rid]
        sends := c.sends ++ ["getState"] } from by
          simp [getStateFromCentralHub, hsock]]
      exact ⟨rfl, hc⟩

theorem run_count_zero (es : List Event) (c : Client) (h : Nat)
    (hc : countH h c.callbacks = 0)
    (he : ∀ e ∈ es, e ≠ Event.addL h) :
    invocations h (run c es) = invocations h c ∧
    countH h (run c es).callbacks = 0 := by
  induction es generalizing c with
  | nil => exact ⟨rfl, hc⟩
  | cons e rest ih =>
    have hstep := step_count_zero c e h hc (he e (by simp))
    have hrest := ih (step c e) hstep.2 (fun e2 hm => he e2 (by simp [hm]))
    exact ⟨hrest.1.trans hstep.1, hrest.2⟩

/-- C5 (amended): notifications are synchronous and ordered — each
`emitUpdated` appends one invocation per registered callback, in
registration order, all carrying the current mutated mirror object;
a handler registered exactly once at the start of a run and neither
re-added nor removed during it is invoked exactly once per status
assignment plus once per merged update (`statusSets + merges`);
`removeHubStateUpdatedListener` on a handler registered at most once
leaves it unregistered; and an unregistered handler is never invoked
again in any run that does not re-add it. -/
theorem listener_invocation_accounting :
    (∀ c : Client, (emitUpdated c).notes =
      c.notes ++ c.callbacks.map (fun i => (i, c.hubState))) ∧
    (∀ (c : Client) (es : List Event) (h : Nat),
      countH h c.callbacks = 1 → c.notes = [] → c.statusSets = 0 →
      c.merges = 0 → (∀ e ∈ es, eventTouches h e = false) →
      invocations h (run c es) = (run c es).statusSets + (run c es).merges) ∧
    (∀ (c : Client) (h : Nat), countH h c.callbacks ≤ 1 →
      countH h (removeHubStateUpdatedListener h c).callbacks = 0) ∧
    (∀ (c : Client) (es : List Event) (h : Nat),
      countH h c.callbacks = 0 → (∀ e ∈ es, e ≠ Event.addL h) →
      invocations h (run c es) = invocations h c) := by
  refine ⟨fun c => rfl, ?_, ?_, ?_⟩
  · intro c es h hc hn hs hm he
    have hrun := (run_count_inv es c h hc he).1
    have hinv0 : invocations h c = 0 := by
      show (c.notes.filter (fun p => p.1 = h)).length = 0
      rw [hn]
      rfl
    rw [hinv0, hs, hm] at hrun
    omega
  · intro c h hle
    show countH h (removeFirst h c.callbacks) = 0
    rw [countH_removeFirst_self]
    omega
  · intro c es h hc he
    exact (run_count_zero es c h hc he).1

/-- Witness for `listener_invocation_accounting`: handler 5, registered
once from the start, sees one status assignment and one merge — two
invocations; and an unregistered handler stays uninvoked. -/
theorem listener_invocation_accounting_witness :
    invocations 5 (run { initialClient with callbacks := [5] }
      [Event.setStatus "connecting",
       Event.msg 3 (Frame.stateUpdate [("a", JVal.n 1)])]) = 2 ∧
    invocations 9 (run initialClient
      [Event.setStatus "connecting"]) = 0 := by
  constructor
  · have h := listener_invocation_accounting.2.1
      { initialClient with callbacks := [5] }
      [Event.setStatus "connecting",
       Event.msg 3 (Frame.stateUpdate [("a", JVal.n 1)])]
      5 (by decide) rfl rfl rfl (by decide)
    rw [h]
    decide
  · have h := listener_invocation_accounting.2.2.2 initialClient
      [Event.setStatus "connecting"] 9 (by decide) (by decide)
    rw [h]
    decide

/-- C5 counterexample: starting from the fresh module state, the run
`setStatus "connecting"; addListener 7; addListener 7; removeListener 7;
stateUpdate` leaves handler 7 currently registered (the duplicate
registration survives the single `splice`), yet its invocation count is 1
while status transitions plus merged updates total 2 — and the invocation
happens after `removeHubStateUpdatedListener 7` returned, so neither the
count equality nor the never-invoked-after-removal guarantee of the claim
holds as stated. -/
theorem listener_claim_counterexample :
    (run initialClient
      [Event.setStatus "connecting", Event.addL 7, Event.addL 7,
       Event.removeL 7]).callbacks = [7] ∧
    invocations 7 (run initialClient
      [Event.setStatus "connecting", Event.addL 7, Event.addL 7,
       Event.removeL 7]) = 0 ∧
    invocations 7 (run initialClient
      [Event.setStatus "connecting", Event.addL 7, Event.addL 7,
       Event.removeL 7,
       Event.msg 10 (Frame.stateUpdate [("foo", JVal.n 1)])]) = 1 ∧
    (run initialClient
      [Event.setStatus "connecting", Event.addL 7, Event.addL 7,
       Event.removeL 7,
       Event.msg 10 (Frame.stateUpdate [("foo", JVal.n 1)])]).statusSets +
      (run initialClient
        [Event.setStatus "connecting", Event.addL 7, Event.addL 7,
         Event.removeL 7,
         Event.msg 10 (Frame.stateUpdate [("foo", JVal.n 1)])]).merges = 2 ∧
    (1 : Nat) ≠ 2 := by
  refine ⟨?_, ?_, ?_, ?_, by decide⟩ <;> decide

/-- The close listener of `connectToHub`: when `autoReconnect` is enabled
it schedules `delayedConnectToHub(state)` — returning the delay of the
scheduled attempt, `none` when auto-reconnect is off. -/
def onCloseSchedulesReconnect (autoReconnect : Bool) : Option Nat :=
  if autoReconnect then some RECONNECT_DELAY_MS else none

/-- The situation when the 5000 ms timer of `delayedConnectToHub` fires.
`optionState` is the `state` object the close listener captured: the
`state` OPTION of the `connectToHub` call (its default, and the value the
in-repo caller `HubStateProvider` passes, is `DEFAULT_HUB_STATE`).  It is
a distinct object from the live mirror: `__hub_state` is initialised as
the spread copy `\x7b ...DEFAULT_HUB_STATE \x7d`, and `setHubConnStatus`
writes `__hub_state.hubConnStatus` only — nothing in the repository ever
writes `DEFAULT_HUB_STATE.hubConnStatus`.  `liveStatus` records
`__hub_state.hubConnStatus` at the moment the timer fires. -/
structure ReconnectFire where
  optionState : Obj
  liveStatus : Option JVal
deriving DecidableEq, Repr

/-- The body of `delayedConnectToHub`'s timer: call `connectToHub` again
exactly when `state.hubConnStatus === "offline"` — read from the captured
options object, not from the live mirror. -/
def delayedConnectAttempts (f : ReconnectFire) : Bool :=
  decide (getKey f.optionState "hubConnStatus" = some (JVal.s "offline"))

/-- C3 counterexample: with the default options state (`DEFAULT_HUB_STATE`)
captured by the close listener, the 5000 ms timer attempts a reconnect
even though the live connection status is "online" at that moment — the
guard reads the never-mutated options object, so "a new connection is
attempted if and only if the connection status is still offline" fails. -/
theorem delayed_reconnect_counterexample :
    delayedConnectAttempts
      { optionState := DEFAULT_HUB_STATE
        liveStatus := some (JVal.s "online") } = true ∧
    ({ optionState := DEFAULT_HUB_STATE
       liveStatus := some (JVal.s "online") } : ReconnectFire).liveStatus ≠
      some (JVal.s "offline") := by
  refine ⟨by decide, by decide⟩

/-- C3 (amended): on socket close with auto-reconnect enabled a reconnect
attempt is scheduled 5000 ms later, and at that time `connectToHub` is
called if and only if the `hubConnStatus` property of the state object
passed in `connectToHub`'s options reads "offline" at that moment; with
the default options state (`DEFAULT_HUB_STATE`, which the client never
mutates) this property is always "offline", so the reconnect proceeds
regardless of the live connection status. -/
theorem delayed_reconnect_guard (f : ReconnectFire) :
    onCloseSchedulesReconnect true = some 5000 ∧
    onCloseSchedulesReconnect false = none ∧
    (delayedConnectAttempts f = true ↔
      getKey f.optionState "hubConnStatus" = some (JVal.s "offline")) ∧
    delayedConnectAttempts
      { optionState := DEFAULT_HUB_STATE, liveStatus := f.liveStatus } =
      true := by
  refine ⟨rfl, rfl, decide_eq_true_iff, rfl⟩

/-- Witness for `delayed_reconnect_guard` at a concrete fire situation. -/
theorem delayed_reconnect_guard_witness :
    delayedConnectAttempts
      { optionState := [("hubConnStatus", JVal.s "offline")]
        liveStatus := none } = true :=
  (delayed_reconnect_guard
    { optionState := [("hubConnStatus", JVal.s "offline")]
      liveStatus := none }).2.2.1.mpr (by decide)

/-- `webSocket && webSocket.readyState === WebSocket.OPEN` of
hubMessages.ts. -/
def socketReady : Option ReadyState → Bool
  | some ReadyState.OPEN => true
  | _ => false

/-- Observable outcome of one `sendHubStateUpdate` call of hubMessages.ts:
whether the frame was written at call time, the delays of the retries it
scheduled, whether the retry wrote the frame, and whether any error was
surfaced to the caller. -/
structure SendAttemptResult where
  sentImmediately : Bool
  retryDelays : List Nat
  sentAtRetry : Bool
  errorSurfaced : Bool
deriving DecidableEq, Repr

/-- `sendHubStateUpdate` of hubMessages.ts.  `s0` is the state of the
module-level `webSocket` binding at call time (`none` when `null`), `s1`
its state when the scheduled `setTimeout` callback fires 1000 ms later
(the callback re-reads the live binding).  If the socket is ready the
frame is sent at once; otherwise the call logs a warning, schedules one
retry after `SEND_RETRY_DELAY_MS`, and the retry sends exactly when the
socket is ready then — else the update is dropped with no error and no
further retry. -/
def sendHubStateUpdate (s0 s1 : Option ReadyState) : SendAttemptResult :=
  if socketReady s0 then
    { sentImmediately := true
      retryDelays := []
      sentAtRetry := false
      errorSurfaced := false }
  else
    { sentImmediately := false
      retryDelays := [SEND_RETRY_DELAY_MS]
      sentAtRetry := socketReady s1
      errorSurfaced := false }

/-- C9: a `sendHubStateUpdate` call while the socket is not OPEN sends
nothing immediately, schedules exactly one retry 1000 ms later, surfaces
no error, and the retry sends exactly when the socket is OPEN at that
time — in particular, if it is still not OPEN the update is silently
dropped, never sent, with no further retry. -/
theorem send_update_retry_once (s0 s1 : Option ReadyState)
    (h : socketReady s0 = false) :
    (sendHubStateUpdate s0 s1).sentImmediately = false ∧
    (sendHubStateUpdate s0 s1).retryDelays = [SEND_RETRY_DELAY_MS] ∧
    (sendHubStateUpdate s0 s1).errorSurfaced = false ∧
    (sendHubStateUpdate s0 s1).sentAtRetry = socketReady s1 ∧
    (socketReady s1 = false → (sendHubStateUpdate s0 s1).sentAtRetry = false) := by
  simp [sendHubStateUpdate, h]

/-- Witness for `send_update_retry_once`: no socket at call time, socket
CLOSED at retry time — the update is dropped. -/
theorem send_update_retry_once_witness :
    (sendHubStateUpdate none (some ReadyState.CLOSED)).sentImmediately = false ∧
    (sendHubStateUpdate none (some ReadyState.CLOSED)).sentAtRetry = false := by
  have h := send_update_retry_once none (some ReadyState.CLOSED) rfl
  exact ⟨h.1, h.2.2.2.2 rfl⟩
